import Mathlib

/-!
Verification development for the `llas` header-only LAS point-cloud reader
(`include/llas.hpp`, namespace `llas`).  The binary decoding pipeline is
embedded shallowly:

* a loaded file is a `List Nat` of byte values (the C++ code `memcpy`s from a
  fully loaded `std::vector<char>`); the C++ code performs no bounds checking,
  and a read past the end of the buffer is undefined behaviour in C++ — it is
  modelled here as reading zero bytes (`List.getD _ _ 0`), which is only ever
  relied upon for facts that hold for any modelling of the out-of-range bytes
  (in particular, that no parse is ever aborted by a short buffer);
* multi-byte fields are decoded least-significant-byte first, exactly as the
  little-endian `memcpy` into the fixed-width integer fields does;
* `double`-typed fields hold their raw 64-bit little-endian bit pattern (that
  is literally what the `memcpy` stores); the bit pattern is interpreted as a
  rational value only where the C++ code performs arithmetic on it
  (`getPointCoords` / `getPointColors`), via an executable model of IEEE-754
  binary64 round-to-nearest-even (`roundF64`, `f64Val`);
* the diagnostic log (`_LLAS_logError` calls reachable from `read`) is made
  explicit as a `List Diag` result component;
* `read` takes the loaded bytes directly (opening the file is I/O outside the
  decoding core) and returns `Option LasData` for `LasData_ptr` (`none` for
  `nullptr`).
-/

namespace llas

/-- One byte of the loaded file; out-of-range reads (undefined behaviour in
the C++ source, which never bounds-checks) are modelled as zero. -/
def byteAt (b : List Nat) (i : Nat) : Nat := b.getD i 0 % 256

/-- Little-endian decode of `n` bytes starting at `off`, as the `memcpy` into
an `n`-byte unsigned integer field does. -/
def readLE (b : List Nat) (off : Nat) : Nat → Nat
  | 0 => 0
  | n + 1 => byteAt b off + 256 * readLE b (off + 1) n

/-- Raw copy of `n` bytes starting at `off` (char-array fields). -/
def readChars (b : List Nat) (off n : Nat) : List Nat :=
  (List.range n).map fun k => byteAt b (off + k)

/-- Reinterpret a 32-bit unsigned value as two's-complement `int32_t`. -/
def toInt32 (v : Nat) : Int := if v < 2 ^ 31 then (v : Int) else (v : Int) - 2 ^ 32

/-- Reinterpret an 8-bit unsigned value as two's-complement `int8_t`. -/
def toInt8 (v : Nat) : Int := if v < 2 ^ 7 then (v : Int) else (v : Int) - 2 ^ 8

/-!
### Executable model of IEEE-754 binary64 arithmetic

The C++ source performs `double` arithmetic in `getPointCoords` (the
`value * scaleFactor + offset` rescale) and `getPointColors` (the
`255.0 / 65535.0` downscale and the truncating cast to `unsigned char`).
These are modelled exactly: a `double` value is the rational it denotes, and
each arithmetic operation rounds its exact rational result to 53 significant
bits with ties to even (`roundF64`), which is IEEE-754 round-to-nearest-even
on the whole range the decoder can produce (overflow to infinity is not
modelled; it needs magnitudes at least `2^1024`).  Rational multiplication
and addition are implemented through `mkRat` (`mulQ`/`addQ`, provably equal
to `*` and `+` on `ℚ`) so that concrete instances evaluate by `decide`.
-/

/-- Rational multiplication via `mkRat` (definitionally reducible form of
`a * b`). -/
def mulQ (a b : ℚ) : ℚ := mkRat (a.num * b.num) (a.den * b.den)

/-- Rational addition via `mkRat` (definitionally reducible form of
`a + b`). -/
def addQ (a b : ℚ) : ℚ := mkRat (a.num * (b.den : ℤ) + b.num * (a.den : ℤ)) (a.den * b.den)

/-- Floor of the base-2 logarithm, by structural recursion on a fuel bound. -/
def natLog2Aux : Nat → Nat → Nat
  | 0, _ => 0
  | fuel + 1, n => if n < 2 then 0 else natLog2Aux fuel (n / 2) + 1

/-- `natLog2 n` is the floor of the base-2 logarithm of `n` (0 at 0). -/
def natLog2 (n : Nat) : Nat := natLog2Aux n n

/-- The rational `2 ^ k` for an integer exponent. -/
def pow2Q (k : ℤ) : ℚ := if 0 ≤ k then mkRat (2 ^ k.toNat) 1 else mkRat 1 (2 ^ (-k).toNat)

/-- Floor of the base-2 logarithm of a positive rational. -/
def ratLog2 (q : ℚ) : ℤ :=
  let a := q.num.natAbs
  let d := q.den
  let k0 : ℤ := (natLog2 a : ℤ) - (natLog2 d : ℤ)
  if pow2Q k0 ≤ q then k0 else k0 - 1

/-- `n / d` rounded to the nearest natural, ties to even. -/
def roundHalfEvenDiv (n d : Nat) : Nat :=
  let q := n / d
  let r := n % d
  if 2 * r < d then q
  else if d < 2 * r then q + 1
  else if q % 2 = 0 then q else q + 1

/-- Round a rational to IEEE-754 binary64 precision, nearest, ties to even:
53 significant bits in the normal range, fixed scale `2 ^ (-1074)` in the
subnormal range. -/
def roundF64 (q : ℚ) : ℚ :=
  if q = 0 then 0
  else
    let aq : ℚ := if q < 0 then -q else q
    let e : ℤ := max (ratLog2 aq - 52) (-1074)
    let scaled : ℚ := mulQ aq (pow2Q (-e))
    let m : Nat := roundHalfEvenDiv scaled.num.natAbs scaled.den
    let r : ℚ := mulQ (mkRat m 1) (pow2Q e)
    if q < 0 then -r else r

/-- Whether a 64-bit pattern denotes a finite `double` (exponent field not
all-ones). -/
def f64IsFinite (bits : Nat) : Bool := (bits / 2 ^ 52) % 2 ^ 11 ≠ 2047

/-- The rational value denoted by a finite `double` bit pattern (sign bit,
11-bit biased exponent, 52-bit fraction; bias 1023). -/
def f64Val (bits : Nat) : ℚ :=
  let sign := bits / 2 ^ 63
  let ex : Nat := (bits / 2 ^ 52) % 2 ^ 11
  let frac : Nat := bits % 2 ^ 52
  let mag : ℚ :=
    if ex = 0 then mulQ (mkRat frac 1) (pow2Q (-1074))
    else mulQ (mkRat (2 ^ 52 + frac) 1) (pow2Q ((ex : ℤ) - 1075))
  if sign % 2 = 1 then -mag else mag

/-- The C-style cast of a nonnegative `double` to `unsigned char`:
truncation toward zero (the decoder only casts values in `[0, 256)`). -/
def truncUChar (q : ℚ) : Nat := (q.num / (q.den : ℤ)).toNat

/-- Diagnostics emitted through `_LLAS_logError` on paths reachable from
`read`. -/
inductive Diag where
  | invalidPointDataRecordFormat (format : Nat)
  | vlrRegionOverflow
  | oversizedVLRPayload (len : Nat)
  | unsupportedPointDataRecordFormat (format : Nat)
deriving Repr, DecidableEq

/-- `llas::PublicHeader`.  Field defaults model the value-initialising
default constructor (everything zero / false).  `double` fields hold their
64-bit bit patterns. -/
structure PublicHeader where
  fileSignature : List Nat := List.replicate 4 0
  fileSourceID : Nat := 0
  globalEncoding : Nat := 0
  projectID1 : Nat := 0
  projectID2 : Nat := 0
  projectID3 : Nat := 0
  projectID4 : List Nat := List.replicate 8 0
  versionMajor : Nat := 0
  versionMinor : Nat := 0
  systemIdentifier : List Nat := List.replicate 32 0
  generatingSoftware : List Nat := List.replicate 32 0
  fileCreationDayOfYear : Nat := 0
  fileCreationYear : Nat := 0
  headerSize : Nat := 0
  offsetToPointData : Nat := 0
  numOfVariableLengthRecords : Nat := 0
  pointDataRecordFormat : Nat := 0
  pointDataRecordLength : Nat := 0
  legacyNumOfPointRecords : Nat := 0
  legacyNumOfPointByReturn : List Nat := List.replicate 5 0
  xScaleFactor : Nat := 0
  yScaleFactor : Nat := 0
  zScaleFactor : Nat := 0
  xOffset : Nat := 0
  yOffset : Nat := 0
  zOffset : Nat := 0
  maxX : Nat := 0
  maxY : Nat := 0
  maxZ : Nat := 0
  minX : Nat := 0
  minY : Nat := 0
  minZ : Nat := 0
  startOfWaveformDataPacketRecord : Nat := 0
  startOfFirstExtendedVariableLengthRecord : Nat := 0
  numOfExtendedVariableLengthRecords : Nat := 0
  numOfPointRecords : Nat := 0
  numOfPointsByReturn : List Nat := List.replicate 15 0
  hasStartOfWaveformDataPacketRecord : Bool := false
  hasStartOfFirstExtendedVariableLengthRecord : Bool := false
  hasNumOfExtendedVariableLengthRecords : Bool := false
  hasNumOfPointRecords : Bool := false
  hasNumOfPointsByReturn : Bool := false
deriving Repr, DecidableEq

/-- `PublicHeader::readPublicHeader`, together with the final value of its
local `offset` cursor (second component).  The fixed prefix is read at the
constant offsets obtained by accumulating the source's `NUM_BYTES_*`
constants in source order: signature 4 at 0, sourceID 2 at 4, globalEncoding
2 at 6, projectID1 4 at 8, projectID2 2 at 12, projectID3 2 at 14, projectID4
8 at 16, versionMajor 1 at 24, versionMinor 1 at 25, systemIdentifier 32 at
26, generatingSoftware 32 at 58, dayOfYear 2 at 90, year 2 at 92, headerSize
2 at 94, offsetToPointData 4 at 96, numOfVariableLengthRecords 4 at 100,
pointDataRecordFormat 1 at 104, pointDataRecordLength 2 at 105,
legacyNumOfPointRecords 4 at 107, legacyNumOfPointByReturn 20 at 111, the six
scale/offset doubles 8 each from 131, then maxX, minX, maxY, minY, maxZ, minZ
8 each from 179, ending at 227.  The tail fields are gated: the source sets
`hasStartOfWaveformDataPacketRecord` iff `versionMinor >= 3` and the four
1.4 flags iff `versionMinor >= 4`, then reads each tail field only when its
flag is set. -/
def readPublicHeaderAux (b : List Nat) : PublicHeader × Nat :=
  let versionMinor := byteAt b 25
  -- Start of Waveform Data Packet Record (8 bytes, versionMinor >= 3 only)
  let startOfWaveformDataPacketRecord := if 3 ≤ versionMinor then readLE b 227 8 else 0
  let off1 := if 3 ≤ versionMinor then 227 + 8 else 227
  -- Start of First Extended Variable Length Record (8 bytes, 1.4 only)
  let startOfFirstExtendedVariableLengthRecord := if 4 ≤ versionMinor then readLE b off1 8 else 0
  let off2 := if 4 ≤ versionMinor then off1 + 8 else off1
  -- Number of Extended Variable Length Records (4 bytes, 1.4 only)
  let numOfExtendedVariableLengthRecords := if 4 ≤ versionMinor then readLE b off2 4 else 0
  let off3 := if 4 ≤ versionMinor then off2 + 4 else off2
  -- Number of Point Records (8 bytes, 1.4 only)
  let numOfPointRecords := if 4 ≤ versionMinor then readLE b off3 8 else 0
  let off4 := if 4 ≤ versionMinor then off3 + 8 else off3
  -- Number of Points by Return (15 x 8 bytes, 1.4 only)
  let numOfPointsByReturn :=
    if 4 ≤ versionMinor then (List.range 15).map (fun k => readLE b (off4 + 8 * k) 8)
    else List.replicate 15 0
  let off5 := if 4 ≤ versionMinor then off4 + 120 else off4
  ({ fileSignature := readChars b 0 4
     fileSourceID := readLE b 4 2
     globalEncoding := readLE b 6 2
     projectID1 := readLE b 8 4
     projectID2 := readLE b 12 2
     projectID3 := readLE b 14 2
     projectID4 := readChars b 16 8
     versionMajor := byteAt b 24
     versionMinor := versionMinor
     systemIdentifier := readChars b 26 32
     generatingSoftware := readChars b 58 32
     fileCreationDayOfYear := readLE b 90 2
     fileCreationYear := readLE b 92 2
     headerSize := readLE b 94 2
     offsetToPointData := readLE b 96 4
     numOfVariableLengthRecords := readLE b 100 4
     pointDataRecordFormat := byteAt b 104
     pointDataRecordLength := readLE b 105 2
     legacyNumOfPointRecords := readLE b 107 4
     legacyNumOfPointByReturn := (List.range 5).map (fun k => readLE b (111 + 4 * k) 4)
     xScaleFactor := readLE b 131 8
     yScaleFactor := readLE b 139 8
     zScaleFactor := readLE b 147 8
     xOffset := readLE b 155 8
     yOffset := readLE b 163 8
     zOffset := readLE b 171 8
     maxX := readLE b 179 8
     minX := readLE b 187 8
     maxY := readLE b 195 8
     minY := readLE b 203 8
     maxZ := readLE b 211 8
     minZ := readLE b 219 8
     startOfWaveformDataPacketRecord := startOfWaveformDataPacketRecord
     startOfFirstExtendedVariableLengthRecord := startOfFirstExtendedVariableLengthRecord
     numOfExtendedVariableLengthRecords := numOfExtendedVariableLengthRecords
     numOfPointRecords := numOfPointRecords
     numOfPointsByReturn := numOfPointsByReturn
     hasStartOfWaveformDataPacketRecord := decide (3 ≤ versionMinor)
     hasStartOfFirstExtendedVariableLengthRecord := decide (4 ≤ versionMinor)
     hasNumOfExtendedVariableLengthRecords := decide (4 ≤ versionMinor)
     hasNumOfPointRecords := decide (4 ≤ versionMinor)
     hasNumOfPointsByReturn := decide (4 ≤ versionMinor) }, off5)

/-- `PublicHeader::readPublicHeader` (the header value alone). -/
def readPublicHeader (b : List Nat) : PublicHeader := (readPublicHeaderAux b).1

/-- `llas::VariableLengthRecord`; defaults model the default constructor. -/
structure VariableLengthRecord where
  reserved : Nat := 0
  userID : List Nat := List.replicate 16 0
  recordID : Nat := 0
  recordLengthAfterHeader : Nat := 0
  description : List Nat := List.replicate 32 0
  record : List Nat := []
deriving Repr, DecidableEq

instance : Inhabited VariableLengthRecord := ⟨{}⟩

/-- `VariableLengthRecord::readVariableLengthRecord`.  Layout: reserved 2
bytes (the source `memcpy`s 2 bytes at a 1-byte field; only the first byte
lands in `reserved`), userID 16, recordID 2, recordLengthAfterHeader 2,
description 32 — a 54-byte prefix — then a payload of
`recordLengthAfterHeader` bytes, guarded by the source's
`recordLengthAfterHeader <= 65535` test whose else-branch logs an error and
leaves the payload empty.  Returns the record, the advanced offset, and the
diagnostics emitted. -/
def readVariableLengthRecord (b : List Nat) (offset : Nat) :
    VariableLengthRecord × Nat × List Diag :=
  let reserved := byteAt b offset
  let userID := readChars b (offset + 2) 16
  let recordID := readLE b (offset + 18) 2
  let recordLengthAfterHeader := readLE b (offset + 20) 2
  let description := readChars b (offset + 22) 32
  if recordLengthAfterHeader ≤ 65535 then
    ({ reserved := reserved, userID := userID, recordID := recordID,
       recordLengthAfterHeader := recordLengthAfterHeader,
       description := description,
       record := readChars b (offset + 54) recordLengthAfterHeader },
     offset + 54 + recordLengthAfterHeader, [])
  else
    ({ reserved := reserved, userID := userID, recordID := recordID,
       recordLengthAfterHeader := recordLengthAfterHeader,
       description := description, record := [] },
     offset + 54, [Diag.oversizedVLRPayload recordLengthAfterHeader])

/-- `llas::PointDataRecord`; defaults model the default constructor (all
fields zero).  `GPSTime` holds the raw 64-bit double bit pattern. -/
structure PointDataRecord where
  x : Int := 0
  y : Int := 0
  z : Int := 0
  intensity : Nat := 0
  classification : Nat := 0
  scanAngleRank : Int := 0
  userData : Nat := 0
  pointSourceID : Nat := 0
  GPSTime : Nat := 0
  red : Nat := 0
  green : Nat := 0
  blue : Nat := 0
deriving Repr, DecidableEq

instance : Inhabited PointDataRecord := ⟨{}⟩

/-- `PointDataRecord::_readPointDataRecordFotmat0to4` (source spelling kept).
Common prefix, in order: X 4, Y 4, Z 4 (signed), intensity 2, one skipped
sensor-data byte, classification 1, scanAngleRank 1 (signed), userData 1,
pointSourceID 2 — 20 bytes; then GPS time (8 bytes) iff the format is 1, 3
or 4; then red, green, blue (2 bytes each) iff the format is 2 or 3.
Returns the record and the advanced offset. -/
def readPointDataRecordFotmat0to4 (b : List Nat) (offset : Nat) (format : Nat) :
    PointDataRecord × Nat :=
  let x := toInt32 (readLE b offset 4)
  let y := toInt32 (readLE b (offset + 4) 4)
  let z := toInt32 (readLE b (offset + 8) 4)
  let intensity := readLE b (offset + 12) 2
  -- sensor data byte at offset + 14 is skipped (source: offset advanced only)
  let classification := byteAt b (offset + 15)
  let scanAngleRank := toInt8 (byteAt b (offset + 16))
  let userData := byteAt b (offset + 17)
  let pointSourceID := readLE b (offset + 18) 2
  let offset := offset + 20
  let GPSTime := if format = 1 ∨ format = 3 ∨ format = 4 then readLE b offset 8 else 0
  let offset := if format = 1 ∨ format = 3 ∨ format = 4 then offset + 8 else offset
  let red := if format = 2 ∨ format = 3 then readLE b offset 2 else 0
  let green := if format = 2 ∨ format = 3 then readLE b (offset + 2) 2 else 0
  let blue := if format = 2 ∨ format = 3 then readLE b (offset + 4) 2 else 0
  let offset := if format = 2 ∨ format = 3 then offset + 6 else offset
  ({ x := x, y := y, z := z, intensity := intensity,
     classification := classification, scanAngleRank := scanAngleRank,
     userData := userData, pointSourceID := pointSourceID,
     GPSTime := GPSTime, red := red, green := green, blue := blue },
   offset)

/-- `PointDataRecord::readPointDataRecord`: dispatch on the format code.
Formats 0–4 decode; formats 5–15 go through
`_readPointDataRecordFotmat5to15`, which logs an error and returns a
default-constructed record without touching the offset; other formats hit
the final else branch, which also only logs.  Returns the record, the
advanced offset and the diagnostics emitted. -/
def readPointDataRecord (b : List Nat) (offset : Nat) (format : Nat) :
    PointDataRecord × Nat × List Diag :=
  if format < 5 then
    let (r, off) := readPointDataRecordFotmat0to4 b offset format
    (r, off, [])
  else if format < 16 then
    ({}, offset, [Diag.unsupportedPointDataRecordFormat format])
  else
    ({}, offset, [Diag.unsupportedPointDataRecordFormat format])

/-- `llas::ExtendedVariableLengthRecord`. -/
structure ExtendedVariableLengthRecord where
  reserved : Nat := 0
  userID : List Nat := List.replicate 16 0
  recordID : Nat := 0
  recordLengthAfterHeader : Nat := 0
  description : List Nat := List.replicate 32 0
  record : List Nat := []
deriving Repr, DecidableEq

instance : Inhabited ExtendedVariableLengthRecord := ⟨{}⟩

/-- `ExtendedVariableLengthRecord::readExtendedVariableLengthRecord`.
Layout: reserved 2, userID 16, recordID 2, then the source advances 16 bytes
for `recordLengthAfterHeader` (its `NUM_BYTES_RECORD_LENGTH_AFTER_HEADER` is
16 while the field is an 8-byte `uint64_t`; the `memcpy` deposits only the
first 8 of those bytes in the field, the rest spill into memory that the
subsequent description copy overwrites), description 32, then a payload of
`recordLengthAfterHeader` bytes with no upper-bound check. -/
def readExtendedVariableLengthRecord (b : List Nat) (offset : Nat) :
    ExtendedVariableLengthRecord × Nat :=
  let reserved := byteAt b offset
  let userID := readChars b (offset + 2) 16
  let recordID := readLE b (offset + 18) 2
  let recordLengthAfterHeader := readLE b (offset + 20) 8
  let description := readChars b (offset + 36) 32
  ({ reserved := reserved, userID := userID, recordID := recordID,
     recordLengthAfterHeader := recordLengthAfterHeader,
     description := description,
     record := readChars b (offset + 68) recordLengthAfterHeader },
   offset + 68 + recordLengthAfterHeader)

/-- The VLR reading loop of `read`.  The source allocates
`numOfVariableLengthRecords` default slots, then, per iteration, first tests
`(LLAS_ULONG)offset >= offsetToPointData` — the running offset is cast to
`LLAS_ULONG` (`uint32_t`), i.e. truncated modulo `2^32`, before the
comparison — and on overflow it sets `isOK = false`, logs an error and
breaks, leaving the remaining slots default-constructed.  Returns the slot
list, the final `isOK`, and the diagnostics. -/
def readVLRLoop (b : List Nat) (remaining offset offsetToPointData : Nat) :
    List VariableLengthRecord × Bool × List Diag :=
  match remaining with
  | 0 => ([], true, [])
  | r + 1 =>
    if offsetToPointData ≤ offset % 2 ^ 32 then
      (List.replicate (r + 1) {}, false, [Diag.vlrRegionOverflow])
    else
      let res := readVariableLengthRecord b offset
      let rest := readVLRLoop b r res.2.1 offsetToPointData
      (res.1 :: rest.1, rest.2.1, res.2.2 ++ rest.2.2)

/-- The EVLR reading loop of `read`: exactly `remaining` sequential records
starting at `offset`, no overflow check. -/
def readEVLRLoop (b : List Nat) (remaining offset : Nat) :
    List ExtendedVariableLengthRecord :=
  match remaining with
  | 0 => []
  | r + 1 =>
    let res := readExtendedVariableLengthRecord b offset
    res.1 :: readEVLRLoop b r res.2

/-- `llas::LasData` (the pointee of `LasData_ptr`). -/
structure LasData where
  header : PublicHeader := {}
  variableLengthRecords : List VariableLengthRecord := []
  pointDataRecords : List PointDataRecord := []
  extendedVariableLengthRecord : List ExtendedVariableLengthRecord := []
deriving Repr, DecidableEq

/-- `LasData::getNumPoints`. -/
def LasData.getNumPoints (d : LasData) : Nat := d.pointDataRecords.length

/-- `LasData::getPointCoords(rescale)`: the flat list
`[x0, y0, z0, x1, y1, z1, ...]`.  Each integer coordinate is converted to
`double` (exact, since its magnitude is below `2^31`); when `rescale` is set
the source computes `x * header.xScaleFactor + header.xOffset` in `double`
arithmetic (one rounding for the product, one for the sum), per axis. -/
def LasData.getPointCoords (d : LasData) (rescale : Bool) : List ℚ :=
  d.pointDataRecords.flatMap fun p =>
    if rescale then
      [roundF64 (addQ (roundF64 (mulQ ((p.x : ℚ)) (f64Val d.header.xScaleFactor)))
          (f64Val d.header.xOffset)),
       roundF64 (addQ (roundF64 (mulQ ((p.y : ℚ)) (f64Val d.header.yScaleFactor)))
          (f64Val d.header.yOffset)),
       roundF64 (addQ (roundF64 (mulQ ((p.z : ℚ)) (f64Val d.header.zScaleFactor)))
          (f64Val d.header.zOffset))]
    else
      [(p.x : ℚ), (p.y : ℚ), (p.z : ℚ)]

/-- `LasData::getPointColors`: the flat list `[r0, g0, b0, r1, g1, b1, ...]`.
The source computes `scaleFactor = 255.0 / 65535.0` (a `double` division,
hence one rounding of the exact ratio `255 / 65535`), multiplies each channel
by it in `double` arithmetic, and casts the result to `unsigned char`
(truncation toward zero). -/
def LasData.getPointColors (d : LasData) : List Nat :=
  let scaleFactor : ℚ := roundF64 (mkRat 255 65535)
  d.pointDataRecords.flatMap fun p =>
    [truncUChar (roundF64 (mulQ (mkRat p.red 1) scaleFactor)),
     truncUChar (roundF64 (mulQ (mkRat p.green 1) scaleFactor)),
     truncUChar (roundF64 (mulQ (mkRat p.blue 1) scaleFactor))]

/-- `llas::read(filePath, pointDataOnly)` on the loaded file bytes.  Returns
the `LasData_ptr` result (`none` for `nullptr`) and the emitted error
diagnostics.  Steps, as in the source: decode the public header; reject
formats above 10 (`format < 0 || 10 < format` on an unsigned byte, i.e.
`10 < format`) with a null return; when `pointDataOnly` is false run the VLR
loop from `headerSize` (which can clear `isOK`); decode
`legacyNumOfPointRecords` (formats <= 5) or `numOfPointRecords` point
records, each at the absolute offset
`offsetToPointData + i * pointDataRecordLength`; when `pointDataOnly` is
false and both 1.4 EVLR flags are set, read
`numOfExtendedVariableLengthRecords` EVLRs from
`startOfFirstExtendedVariableLengthRecord`; finally return the assembled
`LasData` if `isOK` still holds and null otherwise. -/
def read (fileBytes : List Nat) (pointDataOnly : Bool) : Option LasData × List Diag :=
  let publicHeader := readPublicHeader fileBytes
  let format := publicHeader.pointDataRecordFormat
  if 10 < format then
    (none, [Diag.invalidPointDataRecordFormat format])
  else
    let isLegacyFormat := format ≤ 5
    let vlrRes :=
      if pointDataOnly then ([], true, [])
      else readVLRLoop fileBytes publicHeader.numOfVariableLengthRecords
        publicHeader.headerSize publicHeader.offsetToPointData
    let nPointRecords :=
      if isLegacyFormat then publicHeader.legacyNumOfPointRecords
      else publicHeader.numOfPointRecords
    let pointResults := (List.range nPointRecords).map fun i =>
      readPointDataRecord fileBytes
        (publicHeader.offsetToPointData + i * publicHeader.pointDataRecordLength) format
    let pointDataRecords := pointResults.map fun r => r.1
    let pointDiags := pointResults.flatMap fun r => r.2.2
    let extendedVariableLengthRecords :=
      if !pointDataOnly && publicHeader.hasStartOfFirstExtendedVariableLengthRecord
          && publicHeader.hasNumOfExtendedVariableLengthRecords then
        readEVLRLoop fileBytes publicHeader.numOfExtendedVariableLengthRecords
          publicHeader.startOfFirstExtendedVariableLengthRecord
      else []
    let diags := vlrRes.2.2 ++ pointDiags
    if vlrRes.2.1 then
      (some { header := publicHeader
              variableLengthRecords := vlrRes.1
              pointDataRecords := pointDataRecords
              extendedVariableLengthRecord := extendedVariableLengthRecords }, diags)
    else
      (none, diags)

/-!
### Properties of the binary64 rounding model
-/

theorem mulQ_eq (a b : ℚ) : mulQ a b = a * b := by
  conv_rhs => rw [← Rat.num_div_den a, ← Rat.num_div_den b]
  rw [mulQ, Rat.mkRat_eq_divInt, Rat.divInt_eq_div]
  push_cast
  rw [div_mul_div_comm]

theorem addQ_eq (a b : ℚ) : addQ a b = a + b := by
  have ha : ((a.den : ℚ)) ≠ 0 := Nat.cast_ne_zero.mpr a.den_nz
  have hb : ((b.den : ℚ)) ≠ 0 := Nat.cast_ne_zero.mpr b.den_nz
  conv_rhs => rw [← Rat.num_div_den a, ← Rat.num_div_den b]
  rw [addQ, Rat.mkRat_eq_divInt, Rat.divInt_eq_div]
  push_cast
  rw [div_add_div _ _ ha hb]
  ring

theorem pow2Q_eq (k : ℤ) : pow2Q k = (2 : ℚ) ^ k := by
  rw [pow2Q]
  split
  · rename_i h
    rw [Rat.mkRat_eq_divInt, Rat.divInt_eq_div]
    push_cast
    rw [div_one, ← zpow_natCast, Int.toNat_of_nonneg h]
  · rename_i h
    rw [Rat.mkRat_eq_divInt, Rat.divInt_eq_div]
    push_cast
    rw [one_div, ← zpow_natCast, ← zpow_neg, Int.toNat_of_nonneg (by omega : (0 : ℤ) ≤ -k),
      neg_neg]

theorem natLog2Aux_bounds :
    ∀ fuel n, 0 < n → n ≤ fuel → 2 ^ natLog2Aux fuel n ≤ n ∧ n < 2 ^ (natLog2Aux fuel n + 1) := by
  intro fuel
  induction fuel with
  | zero => intro n h1 h2; omega
  | succ f ih =>
    intro n h1 h2
    rw [natLog2Aux]
    split
    · rename_i h
      constructor <;> simp <;> omega
    · rename_i h
      have hn2 : 2 ≤ n := by omega
      have hrec := ih (n / 2) (by omega) (by omega)
      constructor
      · calc 2 ^ (natLog2Aux f (n / 2) + 1) = 2 ^ natLog2Aux f (n / 2) * 2 := by ring
        _ ≤ n / 2 * 2 := by omega
        _ ≤ n := by omega
      · calc n < n / 2 * 2 + 2 := by omega
        _ ≤ 2 ^ (natLog2Aux f (n / 2) + 1) * 2 := by
            have : n / 2 + 1 ≤ 2 ^ (natLog2Aux f (n / 2) + 1) := hrec.2
            omega
        _ = 2 ^ (natLog2Aux f (n / 2) + 1 + 1) := by ring

theorem natLog2_bounds (n : Nat) (h : 0 < n) :
    2 ^ natLog2 n ≤ n ∧ n < 2 ^ (natLog2 n + 1) :=
  natLog2Aux_bounds n n h le_rfl

theorem ratLog2_bounds (q : ℚ) (h : 0 < q) :
    (2 : ℚ) ^ ratLog2 q ≤ q ∧ q < 2 ^ (ratLog2 q + 1) := by
  have hnum : 0 < q.num := Rat.num_pos.mpr h
  have hden : 0 < q.den := q.pos
  have hq : ((q.num.natAbs : ℚ)) / ((q.den : ℚ)) = q := by
    have h1 : ((q.num.natAbs : ℚ)) = ((q.num : ℚ)) := by
      rw [← Int.cast_natCast (R := ℚ), Int.natAbs_of_nonneg hnum.le]
    rw [h1, Rat.num_div_den]
  have hdenQ : (0 : ℚ) < (q.den : ℚ) := by positivity
  simp only [ratLog2, pow2Q_eq]
  obtain ⟨ha1, ha2⟩ := natLog2_bounds q.num.natAbs (by omega)
  obtain ⟨hd1, hd2⟩ := natLog2_bounds q.den hden
  set la := natLog2 q.num.natAbs with hla
  set ld := natLog2 q.den with hld
  have haQ1 : (2 : ℚ) ^ (la : ℤ) ≤ ((q.num.natAbs : ℚ)) := by
    rw [zpow_natCast]; exact_mod_cast ha1
  have haQ2 : ((q.num.natAbs : ℚ)) < 2 ^ ((la : ℤ) + 1) := by
    rw [show ((la : ℤ) + 1) = ((la + 1 : ℕ) : ℤ) by push_cast; ring, zpow_natCast]
    exact_mod_cast ha2
  have hdQ1 : (2 : ℚ) ^ (ld : ℤ) ≤ ((q.den : ℚ)) := by
    rw [zpow_natCast]; exact_mod_cast hd1
  have hdQ2 : ((q.den : ℚ)) < 2 ^ ((ld : ℤ) + 1) := by
    rw [show ((ld : ℤ) + 1) = ((ld + 1 : ℕ) : ℤ) by push_cast; ring, zpow_natCast]
    exact_mod_cast hd2
  have hupper : q < 2 ^ ((la : ℤ) - (ld : ℤ) + 1) := by
    rw [← hq, div_lt_iff₀ hdenQ]
    calc ((q.num.natAbs : ℚ)) < 2 ^ ((la : ℤ) + 1) := haQ2
      _ = 2 ^ ((la : ℤ) - (ld : ℤ) + 1) * 2 ^ (ld : ℤ) := by
          rw [← zpow_add₀ (by norm_num : (2 : ℚ) ≠ 0)]
          congr 1
          ring
      _ ≤ 2 ^ ((la : ℤ) - (ld : ℤ) + 1) * ((q.den : ℚ)) := by
          have hp : (0 : ℚ) < 2 ^ ((la : ℤ) - (ld : ℤ) + 1) := by positivity
          nlinarith
  have hlower : (2 : ℚ) ^ ((la : ℤ) - (ld : ℤ) - 1) < q := by
    rw [← hq, lt_div_iff₀ hdenQ]
    calc 2 ^ ((la : ℤ) - (ld : ℤ) - 1) * ((q.den : ℚ))
        < 2 ^ ((la : ℤ) - (ld : ℤ) - 1) * 2 ^ ((ld : ℤ) + 1) := by
          have hp : (0 : ℚ) < 2 ^ ((la : ℤ) - (ld : ℤ) - 1) := by positivity
          nlinarith
      _ = 2 ^ (la : ℤ) := by
          rw [← zpow_add₀ (by norm_num : (2 : ℚ) ≠ 0)]
          congr 1
          ring
      _ ≤ ((q.num.natAbs : ℚ)) := haQ1
  split
  · rename_i hc
    exact ⟨hc, hupper⟩
  · rename_i hc
    push_neg at hc
    refine ⟨hlower.le, ?_⟩
    rw [sub_add_cancel]
    exact hc

theorem num_natAbs_div_den (s : ℚ) (hs : 0 < s) :
    ((s.num.natAbs : ℚ)) / ((s.den : ℚ)) = s := by
  have h1 : ((s.num.natAbs : ℚ)) = ((s.num : ℚ)) := by
    rw [← Int.cast_natCast (R := ℚ), Int.natAbs_of_nonneg (Rat.num_pos.mpr hs).le]
  rw [h1, Rat.num_div_den]

theorem roundHalfEvenDiv_le_bounds (n d : Nat) (hd : 0 < d) :
    2 * (n : ℤ) ≤ 2 * (roundHalfEvenDiv n d : ℤ) * d + d ∧
      2 * (roundHalfEvenDiv n d : ℤ) * d ≤ 2 * (n : ℤ) + d := by
  simp only [roundHalfEvenDiv]
  set Q := n / d with hQ
  set R := n % d with hR
  have hmod : ((d : ℤ)) * ((Q : ℤ)) + ((R : ℤ)) = (n : ℤ) := by
    exact_mod_cast Nat.div_add_mod n d
  have hlt : ((R : ℤ)) < (d : ℤ) := by exact_mod_cast Nat.mod_lt n hd
  split
  · rename_i h1
    have h1Z : 2 * ((R : ℤ)) < (d : ℤ) := by exact_mod_cast h1
    constructor <;> nlinarith
  · split
    · rename_i h1 h2
      have h2Z : (d : ℤ) < 2 * ((R : ℤ)) := by exact_mod_cast h2
      constructor <;> push_cast <;> nlinarith
    · split
      · rename_i h1 h2 h3
        have h1Z : (d : ℤ) ≤ 2 * ((R : ℤ)) := by
          have := Nat.le_of_not_lt h1
          exact_mod_cast this
        constructor <;> nlinarith
      · rename_i h1 h2 h3
        have h2Z : 2 * ((R : ℤ)) ≤ (d : ℤ) := by
          have := Nat.le_of_not_lt h2
          exact_mod_cast this
        constructor <;> push_cast <;> nlinarith

theorem roundHalfEvenDiv_ge (n d t : Nat) (hd : 0 < d) (h : t * d ≤ n) :
    t ≤ roundHalfEvenDiv n d := by
  have ht : t ≤ n / d := (Nat.le_div_iff_mul_le hd).mpr h
  simp only [roundHalfEvenDiv]
  split
  · omega
  · split
    · omega
    · split <;> omega

theorem roundF64_pos_spec (q : ℚ) (h : 0 < q) :
    ∃ m : ℕ, roundF64 q = (m : ℚ) * 2 ^ (max (ratLog2 q - 52) (-1074)) ∧
      |(m : ℚ) - q * 2 ^ (-(max (ratLog2 q - 52) (-1074)))| ≤ 1 / 2 ∧
      ∀ t : ℕ, (t : ℚ) ≤ q * 2 ^ (-(max (ratLog2 q - 52) (-1074))) → t ≤ m := by
  simp only [roundF64, if_neg h.ne', if_neg (not_lt.mpr h.le), mulQ_eq, pow2Q_eq,
    Rat.mkRat_one]
  set e := max (ratLog2 q - 52) (-1074) with he
  set s : ℚ := q * 2 ^ (-e) with hs
  have hspos : 0 < s := by positivity
  have hdpos : 0 < s.den := s.pos
  have hdQ : (0 : ℚ) < ((s.den : ℚ)) := by positivity
  have hsval : ((s.num.natAbs : ℚ)) / ((s.den : ℚ)) = s := num_natAbs_div_den s hspos
  set m := roundHalfEvenDiv s.num.natAbs s.den with hm
  have hsub : s * ((s.den : ℚ)) = ((s.num.natAbs : ℚ)) := by
    calc s * ((s.den : ℚ)) = ((s.num.natAbs : ℚ)) / ((s.den : ℚ)) * ((s.den : ℚ)) := by
          rw [hsval]
      _ = ((s.num.natAbs : ℚ)) := div_mul_cancel₀ _ (ne_of_gt hdQ)
  refine ⟨m, by push_cast; ring, ?_, ?_⟩
  · obtain ⟨hb1, hb2⟩ := roundHalfEvenDiv_le_bounds s.num.natAbs s.den hdpos
    have hb1Q : (2 : ℚ) * ((s.num.natAbs : ℚ)) ≤ 2 * (m : ℚ) * ((s.den : ℚ)) + ((s.den : ℚ)) := by
      exact_mod_cast hb1
    have hb2Q : (2 : ℚ) * (m : ℚ) * ((s.den : ℚ)) ≤ 2 * ((s.num.natAbs : ℚ)) + ((s.den : ℚ)) := by
      exact_mod_cast hb2
    rw [abs_le]
    constructor
    · have h1 : (s - (m : ℚ)) * ((s.den : ℚ)) ≤ 1 / 2 * ((s.den : ℚ)) := by
        have expand : (s - (m : ℚ)) * ((s.den : ℚ))
            = ((s.num.natAbs : ℚ)) - (m : ℚ) * ((s.den : ℚ)) := by
          rw [sub_mul, hsub]
        rw [expand]
        linarith
      have h2 := le_of_mul_le_mul_right h1 hdQ
      linarith
    · have h1 : ((m : ℚ) - s) * ((s.den : ℚ)) ≤ 1 / 2 * ((s.den : ℚ)) := by
        have expand : ((m : ℚ) - s) * ((s.den : ℚ))
            = (m : ℚ) * ((s.den : ℚ)) - ((s.num.natAbs : ℚ)) := by
          rw [sub_mul, hsub]
        rw [expand]
        linarith
      have h2 := le_of_mul_le_mul_right h1 hdQ
      linarith
  · intro t ht
    have htn : t * s.den ≤ s.num.natAbs := by
      have h' : (t : ℚ) ≤ ((s.num.natAbs : ℚ)) / ((s.den : ℚ)) := by
        rw [hsval]
        exact ht
      have h'' : (t : ℚ) * ((s.den : ℚ)) ≤ ((s.num.natAbs : ℚ)) := (le_div_iff₀ hdQ).mp h'
      exact_mod_cast h''
    exact roundHalfEvenDiv_ge _ _ _ hdpos htn

theorem roundF64_err (q : ℚ) (h : 0 < q) :
    |roundF64 q - q| ≤ 2 ^ (max (ratLog2 q - 52) (-1074) - 1) := by
  obtain ⟨m, hm, herr, _⟩ := roundF64_pos_spec q h
  set e := max (ratLog2 q - 52) (-1074) with he
  have h2e : (0 : ℚ) < 2 ^ e := by positivity
  have hinv : q * 2 ^ (-e) * 2 ^ e = q := by
    rw [mul_assoc, ← zpow_add₀ (by norm_num : (2 : ℚ) ≠ 0), neg_add_cancel, zpow_zero, mul_one]
  calc |roundF64 q - q| = |((m : ℚ) - q * 2 ^ (-e)) * 2 ^ e| := by rw [hm, sub_mul, hinv]
    _ = |(m : ℚ) - q * 2 ^ (-e)| * |(2 : ℚ) ^ e| := abs_mul _ _
    _ = |(m : ℚ) - q * 2 ^ (-e)| * 2 ^ e := by rw [abs_of_pos h2e]
    _ ≤ 1 / 2 * 2 ^ e := mul_le_mul_of_nonneg_right herr h2e.le
    _ = 2 ^ (e - 1) := by
        rw [zpow_sub₀ (by norm_num : (2 : ℚ) ≠ 0), zpow_one]
        ring

theorem roundF64_ge_nat (q : ℚ) (k : ℕ) (h : 0 < q) (hk : (k : ℚ) ≤ q)
    (he : max (ratLog2 q - 52) (-1074) ≤ 0) : (k : ℚ) ≤ roundF64 q := by
  obtain ⟨m, hm, _, hge⟩ := roundF64_pos_spec q h
  set e := max (ratLog2 q - 52) (-1074) with heq
  have h2e : (0 : ℚ) < 2 ^ e := by positivity
  have hpow : ((2 : ℚ)) ^ ((-e).toNat) = 2 ^ (-e) := by
    rw [← zpow_natCast, Int.toNat_of_nonneg (by omega)]
  have ht : ((k * 2 ^ (-e).toNat : ℕ) : ℚ) ≤ q * 2 ^ (-e) := by
    push_cast
    rw [hpow]
    exact mul_le_mul_of_nonneg_right hk (by positivity)
  have hm' : k * 2 ^ (-e).toNat ≤ m := hge _ ht
  calc (k : ℚ) = ((k * 2 ^ (-e).toNat : ℕ) : ℚ) * 2 ^ e := by
        push_cast
        rw [hpow, mul_assoc, ← zpow_add₀ (by norm_num : (2 : ℚ) ≠ 0), neg_add_cancel,
          zpow_zero, mul_one]
    _ ≤ (m : ℚ) * 2 ^ e := mul_le_mul_of_nonneg_right (by exact_mod_cast hm') h2e.le
    _ = roundF64 q := hm.symm

set_option maxRecDepth 1000000 in
theorem scaleFactor_val :
    roundF64 (mkRat 255 65535) = (280379743338241 : ℚ) / 72057594037927936 := by
  have h : roundF64 (mkRat 255 65535) = mkRat 280379743338241 72057594037927936 := by decide
  rw [h, Rat.mkRat_eq_divInt, Rat.divInt_eq_div]
  norm_num

theorem truncUChar_eq (p : ℚ) (k : ℕ) (h1 : (k : ℚ) ≤ p) (h2 : p < (k : ℚ) + 1) :
    truncUChar p = k := by
  have hppos : (0 : ℚ) ≤ p := le_trans (by positivity) h1
  have hnum : 0 ≤ p.num := Rat.num_nonneg.mpr hppos
  have hdQ : (0 : ℚ) < ((p.den : ℚ)) := by positivity
  obtain ⟨a, ha⟩ : ∃ a : ℕ, p.num = (a : ℤ) := ⟨p.num.toNat, (Int.toNat_of_nonneg hnum).symm⟩
  have hp : p = ((a : ℚ)) / ((p.den : ℚ)) := by
    conv_lhs => rw [← Rat.num_div_den p]
    rw [ha]
    push_cast
    ring
  rw [truncUChar, ha, ← Int.natCast_div, Int.toNat_natCast]
  have hlo : k * p.den ≤ a := by
    have hq : (k : ℚ) * ((p.den : ℚ)) ≤ ((a : ℚ)) := by
      rw [hp] at h1
      exact (le_div_iff₀ hdQ).mp h1
    exact_mod_cast hq
  have hhi : a < (k + 1) * p.den := by
    have hq : ((a : ℚ)) < ((k : ℚ) + 1) * ((p.den : ℚ)) := by
      rw [hp] at h2
      have := (div_lt_iff₀ hdQ).mp h2
      linarith
    exact_mod_cast hq
  exact Nat.div_eq_of_lt_le hlo hhi

set_option maxRecDepth 1000000 in
theorem colorChannel_eq (c : ℕ) (hc : c < 65536) :
    truncUChar (roundF64 (mulQ (mkRat c 1) (roundF64 (mkRat 255 65535)))) = c * 255 / 65535 := by
  rcases Nat.eq_zero_or_pos c with hc0 | hcpos
  · subst hc0
    decide
  · have hmk : (mkRat (c : ℤ) 1) = ((c : ℚ)) := by
      rw [Rat.mkRat_one]
      exact Int.cast_natCast c
    rw [mulQ_eq, hmk, scaleFactor_val]
    set q : ℚ := ((c : ℚ)) * ((280379743338241 : ℚ) / 72057594037927936) with hqdef
    have hcQ1 : (1 : ℚ) ≤ ((c : ℚ)) := by exact_mod_cast hcpos
    have hcQhi : ((c : ℚ)) ≤ 65535 := by exact_mod_cast (by omega : c ≤ 65535)
    have hqpos : 0 < q := by rw [hqdef]; positivity
    have hqlo : (2 : ℚ) ^ (-9 : ℤ) ≤ q := by
      rw [hqdef]
      have : (2 : ℚ) ^ (-9 : ℤ) = 1 / 512 := by norm_num
      rw [this]
      nlinarith
    have hqhi : q < (2 : ℚ) ^ (8 : ℤ) := by
      rw [hqdef]
      have : (2 : ℚ) ^ (8 : ℤ) = 256 := by norm_num
      rw [this]
      nlinarith
    obtain ⟨hb1, hb2⟩ := ratLog2_bounds q hqpos
    have hL9 : (-9 : ℤ) ≤ ratLog2 q := by
      have h1 : (2 : ℚ) ^ (-9 : ℤ) < 2 ^ (ratLog2 q + 1) := lt_of_le_of_lt hqlo hb2
      have := (zpow_lt_zpow_iff_right₀ (by norm_num : (1 : ℚ) < 2)).mp h1
      omega
    have hL7 : ratLog2 q ≤ 7 := by
      have h1 : (2 : ℚ) ^ (ratLog2 q) < 2 ^ (8 : ℤ) := lt_of_le_of_lt hb1 hqhi
      have := (zpow_lt_zpow_iff_right₀ (by norm_num : (1 : ℚ) < 2)).mp h1
      omega
    have hemax : max (ratLog2 q - 52) (-1074) = ratLog2 q - 52 := max_eq_left (by omega)
    have hele : max (ratLog2 q - 52) (-1074) ≤ 0 := by rw [hemax]; omega
    -- the truncated byte index
    set k := c / 257 with hkdef
    have hk255 : (k : ℚ) ≤ 255 := by exact_mod_cast (by omega : k ≤ 255)
    have hck : ((c : ℚ)) ≤ 257 * ((k : ℚ)) + 256 := by
      exact_mod_cast (by omega : c ≤ 257 * k + 256)
    have hkc : 257 * ((k : ℚ)) ≤ ((c : ℚ)) := by
      exact_mod_cast (by omega : 257 * k ≤ c)
    -- lower bound: k ≤ roundF64 q
    have hkq : ((k : ℚ)) ≤ q := by
      rw [hqdef]
      nlinarith
    have hlow : ((k : ℚ)) ≤ roundF64 q := roundF64_ge_nat q k hqpos hkq hele
    -- upper bound: roundF64 q < k + 1
    have herr := roundF64_err q hqpos
    have herr2 : roundF64 q ≤ q + 2 ^ (ratLog2 q - 53) := by
      rw [hemax] at herr
      have habs := abs_le.mp herr
      have : (ratLog2 q - 52 - 1 : ℤ) = ratLog2 q - 53 := by ring
      rw [this] at habs
      linarith [habs.2]
    have hulp : (2 : ℚ) ^ (ratLog2 q - 53) ≤ q * 2 ^ (-53 : ℤ) := by
      have h1 : (2 : ℚ) ^ (ratLog2 q - 53) = 2 ^ (ratLog2 q) * 2 ^ (-53 : ℤ) := by
        rw [sub_eq_add_neg, zpow_add₀ (by norm_num : (2 : ℚ) ≠ 0)]
      rw [h1]
      exact mul_le_mul_of_nonneg_right hb1 (by positivity)
    have hhig : roundF64 q < ((k : ℚ)) + 1 := by
      have h53 : (2 : ℚ) ^ (-53 : ℤ) = 1 / 9007199254740992 := by norm_num
      rw [h53] at hulp
      rw [hqdef] at hulp herr2 ⊢
      nlinarith
    rw [truncUChar_eq _ k hlow hhig]
    omega

/-!
### Helper lemmas about the decoders
-/

theorem readLE_lt (b : List Nat) (off : Nat) : ∀ n, readLE b off n < 256 ^ n := by
  intro n
  induction n generalizing off with
  | zero => simp [readLE]
  | succ k ih =>
    have hb : byteAt b off < 256 := Nat.mod_lt _ (by norm_num)
    have h2 := ih (off + 1)
    have h3 : readLE b off (k + 1) = byteAt b off + 256 * readLE b (off + 1) k := rfl
    rw [h3, pow_succ]
    nlinarith

theorem flatMap_three_get?_zero {α β : Type} (f g h : α → β) (l : List α) (i : Nat) :
    (l.flatMap fun p => [f p, g p, h p]).get? (3 * i) = (l.get? i).map f := by
  induction l generalizing i with
  | nil => simp
  | cons p t ih =>
    cases i with
    | zero => simp
    | succ j =>
      rw [show 3 * (j + 1) = 3 * j + 2 + 1 by ring]
      simp only [List.flatMap_cons, List.cons_append, List.nil_append, List.get?_cons_succ,
        show 3 * j + 2 = 3 * j + 1 + 1 by ring]
      exact ih j

theorem flatMap_three_get?_one {α β : Type} (f g h : α → β) (l : List α) (i : Nat) :
    (l.flatMap fun p => [f p, g p, h p]).get? (3 * i + 1) = (l.get? i).map g := by
  induction l generalizing i with
  | nil => simp
  | cons p t ih =>
    cases i with
    | zero => simp
    | succ j =>
      rw [show 3 * (j + 1) + 1 = 3 * j + 1 + 2 + 1 by ring]
      simp only [List.flatMap_cons, List.cons_append, List.nil_append, List.get?_cons_succ,
        show 3 * j + 1 + 2 = 3 * j + 1 + 1 + 1 by ring]
      exact ih j

theorem flatMap_three_get?_two {α β : Type} (f g h : α → β) (l : List α) (i : Nat) :
    (l.flatMap fun p => [f p, g p, h p]).get? (3 * i + 2) = (l.get? i).map h := by
  induction l generalizing i with
  | nil => simp
  | cons p t ih =>
    cases i with
    | zero => simp
    | succ j =>
      rw [show 3 * (j + 1) + 2 = 3 * j + 2 + 2 + 1 by ring]
      simp only [List.flatMap_cons, List.cons_append, List.nil_append, List.get?_cons_succ,
        show 3 * j + 2 + 2 = 3 * j + 2 + 1 + 1 by ring]
      exact ih j

theorem flatMap_three_length {α β : Type} (F : α → List β) (hF : ∀ p, (F p).length = 3)
    (l : List α) : (l.flatMap F).length = 3 * l.length := by
  induction l with
  | nil => simp
  | cons p t ih =>
    simp only [List.flatMap_cons, List.length_append, ih, hF, List.length_cons]
    ring

theorem readVLRLoop_overflow_mem (b : List Nat) :
    ∀ remaining offset otpd, (readVLRLoop b remaining offset otpd).2.1 = false →
      Diag.vlrRegionOverflow ∈ (readVLRLoop b remaining offset otpd).2.2 := by
  intro remaining
  induction remaining with
  | zero => intro offset otpd h; simp [readVLRLoop] at h
  | succ r ih =>
    intro offset otpd
    rw [readVLRLoop]
    split
    · intro _
      simp
    · intro h
      show Diag.vlrRegionOverflow ∈
        (readVariableLengthRecord b offset).2.2 ++
          (readVLRLoop b r (readVariableLengthRecord b offset).2.1 otpd).2.2
      rw [List.mem_append]
      right
      exact ih _ _ h

/-!
### Concrete input buffers used by counterexamples and witnesses
-/

/-- Overwrite consecutive bytes of a buffer starting at `off`. -/
def setBytes : List Nat → Nat → List Nat → List Nat
  | b, _, [] => b
  | b, off, v :: vs => setBytes (b.set off v) (off + 1) vs

/-- A file image whose header declares `headerSize = 227`,
`offsetToPointData = 350` and `numOfVariableLengthRecords = 5`, with
`pointDataRecordFormat = 0` and no points; the five declared 54-byte VLRs
(record ids 1, 2, 3 at offsets 245, 299, 353) overrun `offsetToPointData`
after the third record. -/
def c2buf : List Nat :=
  (((((((List.replicate 400 0).set 94 227).set 96 94).set 97 1).set 100 5).set 245 1).set
    299 2).set 353 3

/-- A file image with one format-0 point record of 20 bytes at
`offsetToPointData = 227`, raw `X = 1000`, `xScaleFactor = 0.01`
(bit pattern `0x3F847AE147AE147B`) and `xOffset = 100.0`
(bit pattern `0x4059000000000000`). -/
def c8buf : List Nat :=
  ((setBytes (setBytes ((((List.replicate 247 0).set 96 227).set 105 20).set 107 1) 131
    [123, 20, 174, 71, 225, 122, 132, 63]) 155
    [0, 0, 0, 0, 0, 0, 89, 64]).set 227 232).set 228 3

/-- A zero buffer except that the point-data-record format byte (offset 104)
is 7. -/
def c4buf : List Nat := (List.replicate 227 0).set 104 7

/-- A zero buffer except that the point-data-record format byte (offset 104)
is 11 (just above the accepted range). -/
def c3buf : List Nat := (List.replicate 227 0).set 104 11

/-- A 1.4 file image (`versionMinor = 4`) declaring format 6 and one point
record (`numOfPointRecords` at offset 247). -/
def c5buf : List Nat := (((List.replicate 375 0).set 25 4).set 104 6).set 247 1

/-!
### The claims
-/

/-- Claim C1, corrected.  `read` never validates the file signature: the four
signature bytes are stored in the header but never compared against
`"LASF"`, so (in point-data-only mode, where the VLR region is not walked) the
result is non-null whenever the declared point format is at most 10 — whatever
the signature bytes are.  The original claim, that a bad signature yields a
null result, is refuted by `claim_C1_counterexample`. -/
theorem claim_C1 (b : List Nat) (h : (readPublicHeader b).pointDataRecordFormat ≤ 10) :
    ((read b true).1).isSome = true := by
  rw [read, if_neg (by omega : ¬10 < (readPublicHeader b).pointDataRecordFormat)]
  rfl

/-- Witness for `claim_C1` at the all-zero 227-byte file. -/
theorem claim_C1_witness : ((read (List.replicate 227 0) true).1).isSome = true :=
  claim_C1 (List.replicate 227 0) (by decide)

set_option maxRecDepth 2000000 in
/-- Counterexample to claim C1 as stated: the all-zero 227-byte file does not
carry the `"LASF"` signature (bytes `[76, 65, 83, 70]`), yet `read` returns a
non-null result and decodes the whole header. -/
theorem claim_C1_counterexample :
    (readPublicHeader (List.replicate 227 0)).fileSignature ≠ [76, 65, 83, 70] ∧
      ((read (List.replicate 227 0) true).1).isSome = true := by
  constructor
  · decide
  · decide

/-- Claim C3, corrected.  The decoder performs no bounds checking at all:
there is no OutOfBounds condition, and a buffer shorter than a field does not
abort the parse.  A null result arises only from the point-format gate, or —
with VLR parsing enabled — from the VLR region overflow check.  The original
claim, that short reads abort the parse with a null result, is refuted by
`claim_C3_counterexample` (the empty file parses to a non-null result). -/
theorem claim_C3 (b : List Nat) (pdo : Bool) (h : (read b pdo).1 = none) :
    10 < (readPublicHeader b).pointDataRecordFormat ∨
      (pdo = false ∧
        (readVLRLoop b (readPublicHeader b).numOfVariableLengthRecords
            (readPublicHeader b).headerSize (readPublicHeader b).offsetToPointData).2.1
          = false) := by
  by_cases hf : 10 < (readPublicHeader b).pointDataRecordFormat
  · exact Or.inl hf
  · right
    rw [read, if_neg hf] at h
    cases pdo with
    | true => exact absurd h (Option.some_ne_none _)
    | false =>
      refine ⟨rfl, ?_⟩
      by_contra hok
      have hok' : (readVLRLoop b (readPublicHeader b).numOfVariableLengthRecords
          (readPublicHeader b).headerSize (readPublicHeader b).offsetToPointData).2.1
          = true := by
        cases hb : (readVLRLoop b (readPublicHeader b).numOfVariableLengthRecords
            (readPublicHeader b).headerSize (readPublicHeader b).offsetToPointData).2.1
        · exact absurd hb hok
        · rfl
      simp only [Bool.false_eq_true, if_false, hok', if_true] at h
      exact absurd h (Option.some_ne_none _)

set_option maxRecDepth 2000000 in
/-- Counterexample to claim C3 as stated: the empty file is shorter than
every header field, yet the parse is not aborted — `read` returns a non-null
result and emits no diagnostic at all. -/
theorem claim_C3_counterexample :
    ((read [] true).1).isSome = true ∧ (read [] true).2 = [] := by
  constructor
  · decide
  · decide

set_option maxRecDepth 2000000 in
/-- Witness for `claim_C3` at a file declaring format 11: `read` is null and
the reason is indeed the format gate. -/
theorem claim_C3_witness :
    10 < (readPublicHeader c3buf).pointDataRecordFormat ∨
      (true = false ∧
        (readVLRLoop c3buf (readPublicHeader c3buf).numOfVariableLengthRecords
            (readPublicHeader c3buf).headerSize (readPublicHeader c3buf).offsetToPointData).2.1
          = false) :=
  claim_C3 c3buf true (by decide)

/-- Claim C4, corrected.  A declared point format of 7 is inside the accepted
range `[0, 10]`, so `read` does not return null for it (the original claim is
refuted by `claim_C4_counterexample`); instead every format-7 record decodes
through the unsupported-format path to the zero placeholder record, without
advancing the offset, and emits one diagnostic. -/
theorem claim_C4 (b : List Nat) (h : (readPublicHeader b).pointDataRecordFormat = 7) :
    ((read b true).1).isSome = true ∧
      (∀ off, readPointDataRecord b off 7
        = ({}, off, [Diag.unsupportedPointDataRecordFormat 7])) := by
  constructor
  · rw [read, if_neg (by omega : ¬10 < (readPublicHeader b).pointDataRecordFormat)]
    rfl
  · intro off
    rfl

set_option maxRecDepth 2000000 in
/-- Counterexample to claim C4 as stated: a file declaring format 7 parses to
a non-null result. -/
theorem claim_C4_counterexample :
    (readPublicHeader c4buf).pointDataRecordFormat = 7 ∧
      ((read c4buf true).1).isSome = true := by
  constructor
  · decide
  · decide

set_option maxRecDepth 2000000 in
/-- Witness for `claim_C4` at `c4buf`. -/
theorem claim_C4_witness :
    ((read c4buf true).1).isSome = true ∧
      (∀ off, readPointDataRecord c4buf off 7
        = ({}, off, [Diag.unsupportedPointDataRecordFormat 7])) :=
  claim_C4 c4buf (by decide)

/-- Claim C10, confirmed.  The `recordLengthAfterHeader` field of a VLR is
decoded from 2 bytes, hence is at most 65535, so the oversized-payload
rejection branch is unreachable: every decoded VLR's payload consists of
exactly `recordLengthAfterHeader` bytes taken from the buffer at the end of
the 54-byte prefix, the offset advances by `54 + recordLengthAfterHeader`,
and the OversizedVLRPayload diagnostic is never emitted. -/
theorem claim_C10 (b : List Nat) (off : Nat) :
    (readVariableLengthRecord b off).1.recordLengthAfterHeader ≤ 65535 ∧
      (readVariableLengthRecord b off).1.record
        = readChars b (off + 54) (readVariableLengthRecord b off).1.recordLengthAfterHeader ∧
      (readVariableLengthRecord b off).1.record.length
        = (readVariableLengthRecord b off).1.recordLengthAfterHeader ∧
      (readVariableLengthRecord b off).2.1
        = off + 54 + (readVariableLengthRecord b off).1.recordLengthAfterHeader ∧
      (readVariableLengthRecord b off).2.2 = [] := by
  have hlt : readLE b (off + 20) 2 ≤ 65535 := by
    have := readLE_lt b (off + 20) 2
    omega
  rw [readVariableLengthRecord]
  rw [if_pos hlt]
  refine ⟨hlt, rfl, ?_, rfl, rfl⟩
  simp [readChars]

theorem flatMap_singleton_replicate {α β : Type} (l : List α) (g : α → List β) (x : β)
    (h : ∀ a ∈ l, g a = [x]) : l.flatMap g = List.replicate l.length x := by
  induction l with
  | nil => simp
  | cons a t ih =>
    simp only [List.flatMap_cons, List.length_cons, List.replicate_succ,
      h a (List.mem_cons_self a t)]
    rw [ih fun a ha => h a (List.mem_cons_of_mem _ ha)]
    rfl

/-- Claim C2, corrected.  When the running offset — cast to `uint32`, i.e.
taken modulo `2^32`, as in the source's `(LLAS_ULONG)offset` comparison —
reaches or exceeds `offsetToPointData` before the declared count is
exhausted, the VLR loop does stop early and a VLRRegionOverflow diagnostic is
emitted — but the condition is fatal, not non-fatal: the loop clears `isOK`,
so `read` discards the decoded records and returns a null result.  The
original claim's non-null result is refuted by `claim_C2_counterexample`. -/
theorem claim_C2 (b : List Nat)
    (hfmt : (readPublicHeader b).pointDataRecordFormat ≤ 10)
    (hov : (readVLRLoop b (readPublicHeader b).numOfVariableLengthRecords
        (readPublicHeader b).headerSize (readPublicHeader b).offsetToPointData).2.1 = false) :
    (read b false).1 = none ∧ Diag.vlrRegionOverflow ∈ (read b false).2 := by
  have hnf : ¬10 < (readPublicHeader b).pointDataRecordFormat := by omega
  constructor
  · rw [read, if_neg hnf]
    simp only [if_neg Bool.false_ne_true, hov]
  · rw [read, if_neg hnf]
    simp only [if_neg Bool.false_ne_true, hov]
    show Diag.vlrRegionOverflow ∈
      (readVLRLoop b (readPublicHeader b).numOfVariableLengthRecords
          (readPublicHeader b).headerSize (readPublicHeader b).offsetToPointData).2.2 ++ _
    rw [List.mem_append]
    left
    exact readVLRLoop_overflow_mem b _ _ _ hov

set_option maxRecDepth 2000000 in
/-- Counterexample to claim C2 as stated: in `c2buf` the header declares 5
VLRs but the region overflows after 3; the loop decodes exactly the records
with ids 1, 2, 3 and leaves the other two slots default, emits the overflow
diagnostic — and `read` returns null, not a non-null point cloud. -/
theorem claim_C2_counterexample :
    (readPublicHeader c2buf).numOfVariableLengthRecords = 5 ∧
      (readVLRLoop c2buf 5 227 350).1
        = [{ recordID := 1 }, { recordID := 2 }, { recordID := 3 }, {}, {}] ∧
      (readVLRLoop c2buf 5 227 350).2.1 = false ∧
      (read c2buf false).1 = none ∧
      (read c2buf false).2 = [Diag.vlrRegionOverflow] := by
  refine ⟨by decide, by decide, by decide, by decide, by decide⟩

set_option maxRecDepth 2000000 in
/-- Witness for `claim_C2` at `c2buf`. -/
theorem claim_C2_witness :
    (read c2buf false).1 = none ∧ Diag.vlrRegionOverflow ∈ (read c2buf false).2 :=
  claim_C2 c2buf (by decide) (by decide)

/-- Claim C5, corrected.  With `pointDataOnly = true` (the default), `read`
returns null exactly when the declared point format is outside `[0, 10]`
(the format byte is unsigned, so only the upper bound can fail); for formats
5 to 10 the parse continues, the point decoder returns the zero placeholder
record for every point without advancing the read offset, and one
UnsupportedPointFormat diagnostic is emitted per record.  The original
claim's "exactly" fails with `pointDataOnly = false`: a VLR region overflow
also produces a null result for an in-range format
(`claim_C5_counterexample`). -/
theorem claim_C5 :
    (∀ b : List Nat, ((read b true).1 = none ↔
        10 < (readPublicHeader b).pointDataRecordFormat)) ∧
      (∀ (b : List Nat) (off f : Nat), 5 ≤ f → f ≤ 15 →
        readPointDataRecord b off f
          = ({}, off, [Diag.unsupportedPointDataRecordFormat f])) ∧
      (∀ b : List Nat, 5 ≤ (readPublicHeader b).pointDataRecordFormat →
        (readPublicHeader b).pointDataRecordFormat ≤ 10 →
        ∃ d, (read b true).1 = some d ∧
          (∀ p ∈ d.pointDataRecords, p = ({} : PointDataRecord)) ∧
          (read b true).2 = List.replicate d.pointDataRecords.length
            (Diag.unsupportedPointDataRecordFormat
              (readPublicHeader b).pointDataRecordFormat)) := by
  have hrec : ∀ (b : List Nat) (off f : Nat), 5 ≤ f → f ≤ 15 →
      readPointDataRecord b off f = ({}, off, [Diag.unsupportedPointDataRecordFormat f]) := by
    intro b off f h5 h15
    rw [readPointDataRecord, if_neg (by omega), if_pos (by omega)]
  refine ⟨?_, hrec, ?_⟩
  · intro b
    constructor
    · intro h
      by_contra hn
      rw [read, if_neg hn] at h
      exact absurd h (Option.some_ne_none _)
    · intro h
      rw [read, if_pos h]
  · intro b h5 h10
    have hnf : ¬10 < (readPublicHeader b).pointDataRecordFormat := by omega
    rw [read, if_neg hnf]
    refine ⟨_, rfl, ?_, ?_⟩
    · intro p hp
      obtain ⟨i, hi, hpi⟩ := List.mem_map.mp hp
      obtain ⟨j, hj, hji⟩ := List.mem_map.mp hi
      rw [← hpi, ← hji, hrec b _ _ h5 (by omega)]
    · show ([] : List Diag) ++ _ = _
      rw [List.nil_append, List.length_map]
      apply flatMap_singleton_replicate
      intro r hr
      obtain ⟨j, hj, hjr⟩ := List.mem_map.mp hr
      rw [← hjr, hrec b _ _ h5 (by omega)]

set_option maxRecDepth 2000000 in
/-- Counterexample to claim C5 as stated: `c2buf` declares format 0 — inside
`[0, 10]` — yet `read` with VLR parsing enabled returns null (VLR region
overflow), so "null exactly when the format is outside `[0, 10]`" fails. -/
theorem claim_C5_counterexample :
    (readPublicHeader c2buf).pointDataRecordFormat = 0 ∧ (read c2buf false).1 = none := by
  refine ⟨by decide, by decide⟩

set_option maxRecDepth 2000000 in
/-- Witness for `claim_C5` at `c5buf` (format 6, one 1.4 point record). -/
theorem claim_C5_witness :
    ∃ d, (read c5buf true).1 = some d ∧
      (∀ p ∈ d.pointDataRecords, p = ({} : PointDataRecord)) ∧
      (read c5buf true).2 = List.replicate d.pointDataRecords.length
        (Diag.unsupportedPointDataRecordFormat
          (readPublicHeader c5buf).pointDataRecordFormat) :=
  claim_C5.2.2 c5buf (by decide) (by decide)

/-- A zero buffer except that the version-minor byte (offset 25) is 2. -/
def c6buf : List Nat := (List.replicate 227 0).set 25 2

/-- Claim C6, confirmed.  Header decoding derives the capability flags purely
from `versionMinor` (waveform-start at minor ≥ 3; the four 1.4 flags,
all-or-nothing, at minor ≥ 4), reads each gated tail field only when its flag
is set — at the fixed position the preceding fields dictate — and otherwise
leaves the field at its zero default without advancing the cursor: the final
cursor is 227 below minor 3, 235 at minor 3, and 375 from minor 4 on. -/
theorem claim_C6 (b : List Nat) :
    ((readPublicHeaderAux b).1.hasStartOfWaveformDataPacketRecord = true ↔
        3 ≤ (readPublicHeaderAux b).1.versionMinor) ∧
      ((readPublicHeaderAux b).1.hasStartOfFirstExtendedVariableLengthRecord = true ↔
        4 ≤ (readPublicHeaderAux b).1.versionMinor) ∧
      ((readPublicHeaderAux b).1.hasNumOfExtendedVariableLengthRecords = true ↔
        4 ≤ (readPublicHeaderAux b).1.versionMinor) ∧
      ((readPublicHeaderAux b).1.hasNumOfPointRecords = true ↔
        4 ≤ (readPublicHeaderAux b).1.versionMinor) ∧
      ((readPublicHeaderAux b).1.hasNumOfPointsByReturn = true ↔
        4 ≤ (readPublicHeaderAux b).1.versionMinor) ∧
      ((readPublicHeaderAux b).1.versionMinor < 3 →
        (readPublicHeaderAux b).1.startOfWaveformDataPacketRecord = 0 ∧
          (readPublicHeaderAux b).1.startOfFirstExtendedVariableLengthRecord = 0 ∧
          (readPublicHeaderAux b).1.numOfExtendedVariableLengthRecords = 0 ∧
          (readPublicHeaderAux b).1.numOfPointRecords = 0 ∧
          (readPublicHeaderAux b).1.numOfPointsByReturn = List.replicate 15 0 ∧
          (readPublicHeaderAux b).2 = 227) ∧
      (3 ≤ (readPublicHeaderAux b).1.versionMinor →
        (readPublicHeaderAux b).1.startOfWaveformDataPacketRecord = readLE b 227 8) ∧
      (3 ≤ (readPublicHeaderAux b).1.versionMinor →
        (readPublicHeaderAux b).1.versionMinor < 4 →
        (readPublicHeaderAux b).1.startOfFirstExtendedVariableLengthRecord = 0 ∧
          (readPublicHeaderAux b).1.numOfExtendedVariableLengthRecords = 0 ∧
          (readPublicHeaderAux b).1.numOfPointRecords = 0 ∧
          (readPublicHeaderAux b).1.numOfPointsByReturn = List.replicate 15 0 ∧
          (readPublicHeaderAux b).2 = 235) ∧
      (4 ≤ (readPublicHeaderAux b).1.versionMinor →
        (readPublicHeaderAux b).1.startOfFirstExtendedVariableLengthRecord = readLE b 235 8 ∧
          (readPublicHeaderAux b).1.numOfExtendedVariableLengthRecords = readLE b 243 4 ∧
          (readPublicHeaderAux b).1.numOfPointRecords = readLE b 247 8 ∧
          (readPublicHeaderAux b).2 = 375) := by
  rcases Nat.lt_or_ge (byteAt b 25) 3 with h3 | h3
  · have c3 : ¬3 ≤ byteAt b 25 := by omega
    have c4 : ¬4 ≤ byteAt b 25 := by omega
    simp [readPublicHeaderAux, c3, c4, h3]
  · rcases Nat.lt_or_ge (byteAt b 25) 4 with h4 | h4
    · have c4 : ¬4 ≤ byteAt b 25 := by omega
      have c3' : ¬byteAt b 25 < 3 := by omega
      simp [readPublicHeaderAux, h3, c4, h4, c3']
    · have c3' : ¬byteAt b 25 < 3 := by omega
      have c4' : ¬byteAt b 25 < 4 := by omega
      have h3' : 3 ≤ byteAt b 25 := by omega
      simp [readPublicHeaderAux, h3', h4, c3', c4']

set_option maxRecDepth 2000000 in
/-- Witness for `claim_C6` at `c6buf` (`versionMinor = 2`): the gated fields
stay zero and the cursor ends at byte 227. -/
theorem claim_C6_witness :
    (readPublicHeaderAux c6buf).1.startOfWaveformDataPacketRecord = 0 ∧
      (readPublicHeaderAux c6buf).1.startOfFirstExtendedVariableLengthRecord = 0 ∧
      (readPublicHeaderAux c6buf).1.numOfExtendedVariableLengthRecords = 0 ∧
      (readPublicHeaderAux c6buf).1.numOfPointRecords = 0 ∧
      (readPublicHeaderAux c6buf).1.numOfPointsByReturn = List.replicate 15 0 ∧
      (readPublicHeaderAux c6buf).2 = 227 :=
  (claim_C6 c6buf).2.2.2.2.2.1 (by decide)

/-- The non-null result of `read` on `c8buf` (one format-0 point record). -/
def c8data : LasData := ((read c8buf true).1).getD {}

/-- Claim C7, confirmed.  For formats 0–4 the point decoder reads the common
20-byte prefix unconditionally at fixed offsets (X, Y, Z, intensity, one
skipped byte, classification, scan-angle-rank, user data, point-source id),
then GPS time exactly when the format is 1, 3 or 4, then RGB exactly when it
is 2 or 3 — so format 3 yields both and format 0 neither — and `read` places
record `i` at the absolute offset
`offsetToPointData + i * pointDataRecordLength`, i.e. consecutive records are
exactly `pointDataRecordLength` bytes apart. -/
theorem claim_C7 :
    (∀ (b : List Nat) (off f : Nat), f ≤ 4 →
      (readPointDataRecordFotmat0to4 b off f).2
          = off + 20 + (if f = 1 ∨ f = 3 ∨ f = 4 then 8 else 0)
            + (if f = 2 ∨ f = 3 then 6 else 0) ∧
        (readPointDataRecordFotmat0to4 b off f).1.x = toInt32 (readLE b off 4) ∧
        (readPointDataRecordFotmat0to4 b off f).1.y = toInt32 (readLE b (off + 4) 4) ∧
        (readPointDataRecordFotmat0to4 b off f).1.z = toInt32 (readLE b (off + 8) 4) ∧
        (readPointDataRecordFotmat0to4 b off f).1.intensity = readLE b (off + 12) 2 ∧
        (readPointDataRecordFotmat0to4 b off f).1.classification = byteAt b (off + 15) ∧
        (readPointDataRecordFotmat0to4 b off f).1.scanAngleRank = toInt8 (byteAt b (off + 16)) ∧
        (readPointDataRecordFotmat0to4 b off f).1.userData = byteAt b (off + 17) ∧
        (readPointDataRecordFotmat0to4 b off f).1.pointSourceID = readLE b (off + 18) 2 ∧
        (readPointDataRecordFotmat0to4 b off f).1.GPSTime
          = (if f = 1 ∨ f = 3 ∨ f = 4 then readLE b (off + 20) 8 else 0) ∧
        (readPointDataRecordFotmat0to4 b off f).1.red
          = (if f = 2 ∨ f = 3 then
              readLE b (off + 20 + (if f = 1 ∨ f = 3 ∨ f = 4 then 8 else 0)) 2 else 0) ∧
        (readPointDataRecordFotmat0to4 b off f).1.green
          = (if f = 2 ∨ f = 3 then
              readLE b (off + 20 + (if f = 1 ∨ f = 3 ∨ f = 4 then 8 else 0) + 2) 2 else 0) ∧
        (readPointDataRecordFotmat0to4 b off f).1.blue
          = (if f = 2 ∨ f = 3 then
              readLE b (off + 20 + (if f = 1 ∨ f = 3 ∨ f = 4 then 8 else 0) + 4) 2 else 0)) ∧
      (∀ (b : List Nat) (pdo : Bool) (d : LasData), (read b pdo).1 = some d →
        d.pointDataRecords
          = (List.range (if (readPublicHeader b).pointDataRecordFormat ≤ 5
                then (readPublicHeader b).legacyNumOfPointRecords
                else (readPublicHeader b).numOfPointRecords)).map fun i =>
              (readPointDataRecord b ((readPublicHeader b).offsetToPointData
                  + i * (readPublicHeader b).pointDataRecordLength)
                (readPublicHeader b).pointDataRecordFormat).1) := by
  constructor
  · intro b off f hf
    interval_cases f <;>
      exact ⟨rfl, rfl, rfl, rfl, rfl, rfl, rfl, rfl, rfl, rfl, rfl, rfl, rfl⟩
  · intro b pdo d h
    by_cases hfmt : 10 < (readPublicHeader b).pointDataRecordFormat
    · rw [read, if_pos hfmt] at h
      exact Option.noConfusion h
    · rw [read, if_neg hfmt] at h
      cases pdo with
      | true =>
        have hd := Option.some.inj h
        rw [← hd]
        simp only [List.map_map]
        rfl
      | false =>
        cases hok : (readVLRLoop b (readPublicHeader b).numOfVariableLengthRecords
            (readPublicHeader b).headerSize (readPublicHeader b).offsetToPointData).2.1 with
        | false =>
          simp only [if_neg Bool.false_ne_true] at h
          rw [hok] at h
          simp only [if_neg Bool.false_ne_true] at h
          exact Option.noConfusion h
        | true =>
          simp only [if_neg Bool.false_ne_true] at h
          rw [hok] at h
          have hd := Option.some.inj h
          rw [← hd]
          simp only [List.map_map]
          rfl

set_option maxRecDepth 2000000 in
/-- Witness for `claim_C7`: the format-0 record of `c8buf` decoded at offset
227, and the record placement in the non-null result of `read` on `c8buf`. -/
theorem claim_C7_witness :
    ((readPointDataRecordFotmat0to4 c8buf 227 0).2
        = 227 + 20 + (if (0 : Nat) = 1 ∨ (0 : Nat) = 3 ∨ (0 : Nat) = 4 then 8 else 0)
          + (if (0 : Nat) = 2 ∨ (0 : Nat) = 3 then 6 else 0) ∧
      (readPointDataRecordFotmat0to4 c8buf 227 0).1.GPSTime = 0 ∧
      c8data.pointDataRecords
        = (List.range (if (readPublicHeader c8buf).pointDataRecordFormat ≤ 5
              then (readPublicHeader c8buf).legacyNumOfPointRecords
              else (readPublicHeader c8buf).numOfPointRecords)).map fun i =>
            (readPointDataRecord c8buf ((readPublicHeader c8buf).offsetToPointData
                + i * (readPublicHeader c8buf).pointDataRecordLength)
              (readPublicHeader c8buf).pointDataRecordFormat).1) := by
  obtain ⟨h1, _, _, _, _, _, _, _, _, hg, _, _, _⟩ := claim_C7.1 c8buf 227 0 (by omega)
  refine ⟨h1, ?_, claim_C7.2 c8buf true c8data (by decide)⟩
  rw [hg]
  norm_num

set_option maxRecDepth 2000000 in
/-- Claim C8, confirmed.  `getPointCoords` returns the flat list
`[x0, y0, z0, x1, ...]`; with `rescale = true` entry `3i` (resp. `3i+1`,
`3i+2`) is `x_i * xScaleFactor + xOffset` (resp. y, z) computed in binary64
arithmetic — the product rounded, then the sum rounded — and with
`rescale = false` it is the raw integer coordinate converted to `double`
(exact).  In particular, on the file `c8buf` with raw `X = 1000`, scale
`0.01` and offset `100.0`, the first coordinate is exactly `110.0`. -/
theorem claim_C8 :
    (∀ (d : LasData) (i : Nat),
      (d.getPointCoords true).get? (3 * i)
          = (d.pointDataRecords.get? i).map (fun p =>
              roundF64 (roundF64 (((p.x : ℚ)) * f64Val d.header.xScaleFactor)
                + f64Val d.header.xOffset)) ∧
        (d.getPointCoords true).get? (3 * i + 1)
          = (d.pointDataRecords.get? i).map (fun p =>
              roundF64 (roundF64 (((p.y : ℚ)) * f64Val d.header.yScaleFactor)
                + f64Val d.header.yOffset)) ∧
        (d.getPointCoords true).get? (3 * i + 2)
          = (d.pointDataRecords.get? i).map (fun p =>
              roundF64 (roundF64 (((p.z : ℚ)) * f64Val d.header.zScaleFactor)
                + f64Val d.header.zOffset)) ∧
        (d.getPointCoords false).get? (3 * i)
          = (d.pointDataRecords.get? i).map (fun p => ((p.x : ℚ))) ∧
        (d.getPointCoords false).get? (3 * i + 1)
          = (d.pointDataRecords.get? i).map (fun p => ((p.y : ℚ))) ∧
        (d.getPointCoords false).get? (3 * i + 2)
          = (d.pointDataRecords.get? i).map (fun p => ((p.z : ℚ)))) ∧
      (∀ (d : LasData) (r : Bool), (d.getPointCoords r).length = 3 * d.getNumPoints) ∧
      (read c8buf true).1.map (fun d => (d.getPointCoords true).take 3) = some [110, 0, 0] := by
  refine ⟨?_, ?_, by decide⟩
  · intro d i
    simp only [LasData.getPointCoords, if_pos rfl, if_neg Bool.false_ne_true, mulQ_eq, addQ_eq]
    exact ⟨flatMap_three_get?_zero _ _ _ _ _, flatMap_three_get?_one _ _ _ _ _,
      flatMap_three_get?_two _ _ _ _ _, flatMap_three_get?_zero _ _ _ _ _,
      flatMap_three_get?_one _ _ _ _ _, flatMap_three_get?_two _ _ _ _ _⟩
  · intro d r
    rw [LasData.getPointCoords, LasData.getNumPoints]
    apply flatMap_three_length
    intro p
    cases r <;> simp

/-- The one-point cloud used to witness the color instances of claim C9. -/
def c9data : LasData := { pointDataRecords := [{ red := 65535, green := 0, blue := 32767 }] }

set_option maxRecDepth 2000000 in
/-- Claim C9, confirmed.  `getPointColors` returns a flat list of
`3 * pointCount` bytes; each 16-bit channel value `c` is scaled by the
`double` constant `255.0 / 65535.0` and truncated toward zero, which agrees
with the exact truncation `c * 255 / 65535` for every `c < 65536` — in
particular 65535 maps to 255, 0 to 0 and 32767 to 127 (truncation of
127.498..., not rounding). -/
theorem claim_C9 :
    (∀ d : LasData, (d.getPointColors).length = 3 * d.getNumPoints) ∧
      (∀ d : LasData,
        (∀ p ∈ d.pointDataRecords, p.red < 65536 ∧ p.green < 65536 ∧ p.blue < 65536) →
        ∀ i : Nat,
          (d.getPointColors).get? (3 * i)
              = (d.pointDataRecords.get? i).map (fun p => p.red * 255 / 65535) ∧
            (d.getPointColors).get? (3 * i + 1)
              = (d.pointDataRecords.get? i).map (fun p => p.green * 255 / 65535) ∧
            (d.getPointColors).get? (3 * i + 2)
              = (d.pointDataRecords.get? i).map (fun p => p.blue * 255 / 65535)) ∧
      c9data.getPointColors = [255, 0, 127] := by
  refine ⟨?_, ?_, by decide⟩
  · intro d
    rw [LasData.getPointColors, LasData.getNumPoints]
    apply flatMap_three_length
    intro p
    simp
  · intro d hb i
    have hz := flatMap_three_get?_zero
      (fun p : PointDataRecord => truncUChar (roundF64 (mulQ (mkRat p.red 1)
        (roundF64 (mkRat 255 65535)))))
      (fun p => truncUChar (roundF64 (mulQ (mkRat p.green 1) (roundF64 (mkRat 255 65535)))))
      (fun p => truncUChar (roundF64 (mulQ (mkRat p.blue 1) (roundF64 (mkRat 255 65535)))))
      d.pointDataRecords i
    have ho := flatMap_three_get?_one
      (fun p : PointDataRecord => truncUChar (roundF64 (mulQ (mkRat p.red 1)
        (roundF64 (mkRat 255 65535)))))
      (fun p => truncUChar (roundF64 (mulQ (mkRat p.green 1) (roundF64 (mkRat 255 65535)))))
      (fun p => truncUChar (roundF64 (mulQ (mkRat p.blue 1) (roundF64 (mkRat 255 65535)))))
      d.pointDataRecords i
    have ht := flatMap_three_get?_two
      (fun p : PointDataRecord => truncUChar (roundF64 (mulQ (mkRat p.red 1)
        (roundF64 (mkRat 255 65535)))))
      (fun p => truncUChar (roundF64 (mulQ (mkRat p.green 1) (roundF64 (mkRat 255 65535)))))
      (fun p => truncUChar (roundF64 (mulQ (mkRat p.blue 1) (roundF64 (mkRat 255 65535)))))
      d.pointDataRecords i
    rw [LasData.getPointColors]
    cases hm : d.pointDataRecords.get? i with
    | none =>
      rw [hm] at hz ho ht
      exact ⟨hz, ho, ht⟩
    | some p =>
      have hp : p ∈ d.pointDataRecords := List.get?_mem hm
      obtain ⟨hr, hg, hbl⟩ := hb p hp
      rw [hm] at hz ho ht
      simp only [Option.map_some'] at hz ho ht ⊢
      refine ⟨?_, ?_, ?_⟩
      · rw [hz, colorChannel_eq p.red hr]
      · rw [ho, colorChannel_eq p.green hg]
      · rw [ht, colorChannel_eq p.blue hbl]

set_option maxRecDepth 2000000 in
/-- Witness for `claim_C9` at the one-point cloud `c9data` (channel values
65535, 0, 32767). -/
theorem claim_C9_witness :
    (c9data.getPointColors).get? (3 * 0)
        = (c9data.pointDataRecords.get? 0).map (fun p => p.red * 255 / 65535) ∧
      (c9data.getPointColors).get? (3 * 0 + 1)
        = (c9data.pointDataRecords.get? 0).map (fun p => p.green * 255 / 65535) ∧
      (c9data.getPointColors).get? (3 * 0 + 2)
        = (c9data.pointDataRecords.get? 0).map (fun p => p.blue * 255 / 65535) :=
  claim_C9.2.1 c9data (by decide) 0

end llas
